import Mathlib

/-!
# Formal model of the dark channel prior dehazing pipeline

Shallow embedding of `src/dehaze.py` (jacobs-robotics/dark-channel-prior-dehazing).
Images are modelled as total functions `Nat → Nat → Fin 3 → ℚ` together with
explicit height `M` and width `N`; all float arithmetic is modelled over `ℚ`.
The external `guided_filter` operator (imported by `dehaze.py` but not part of
the numeric core) is modelled as a black-box operator parameter.
-/

/-- Minimum of a nonempty collection, seeded at `x`: `List.foldr min x xs`.
Mirrors `np.min` on the nonempty array `x :: xs`. -/
def listMinAux (x : ℚ) (xs : List ℚ) : ℚ := xs.foldr min x

/-- `np.min` over a list; numpy raises on an empty array, which never happens at
the call sites we evaluate, so the empty case is given the junk value `0`. -/
def listMin : List ℚ → ℚ
  | [] => 0
  | x :: xs => listMinAux x xs

/-- Maximum of a nonempty collection, seeded at `x`: `List.foldr max x xs`. -/
def listMaxAux (x : ℚ) (xs : List ℚ) : ℚ := xs.foldr max x

/-- `np.max` over a list; the empty case (on which numpy raises) is junk `0`. -/
def listMax : List ℚ → ℚ
  | [] => 0
  | x :: xs => listMaxAux x xs

/-- Edge-replicated padding, read back in original coordinates: reading the
padded array at offset `m` (the pad margin) left/up of position `(a, b)` gives
the nearest in-bounds pixel.  `Nat` subtraction already clamps at `0`, and
`min _ (M-1)` clamps at the lower border, exactly `np.pad(I, m, mode=edge)`
composed with the slice shift. -/
def padEdge (M N : Nat) (I : Nat → Nat → Fin 3 → ℚ) (m : Nat) :
    Nat → Nat → Fin 3 → ℚ :=
  fun a b c => I (min (a - m) (M - 1)) (min (b - m) (N - 1)) c

/-- All channel values inside the `w × w` window of the padded image whose
top-left corner sits at `(i, j)` of the padded array — the values that
`np.min(padded[i:i+w, j:j+w, :])` reduces over in `get_dark_channel`. -/
def windowVals (M N : Nat) (I : Nat → Nat → Fin 3 → ℚ) (w i j : Nat) : List ℚ :=
  (List.range w).flatMap fun di =>
    (List.range w).flatMap fun dj =>
      (List.finRange 3).map fun c => padEdge M N I (w / 2) (i + di) (j + dj) c

/-- `get_dark_channel(I, w)`: per-cell minimum over a `w × w` window across all
3 channels with edge-replicated padding of margin `w / 2` (floor division, as in
the Python 2 source). -/
def getDarkChannel (M N : Nat) (I : Nat → Nat → Fin 3 → ℚ) (w : Nat) :
    Nat → Nat → ℚ :=
  fun i j => listMin (windowVals M N I w i j)

/-- Python `int()` of a float: truncation toward zero. -/
def truncQ (q : ℚ) : Int := if 0 ≤ q then Rat.floor q else -(Rat.floor (-q))

/-- Length selected by the Python slice `a[:k]` on a list of length `len`,
including the negative-`k` convention (all but the last `-k` elements). -/
def pySlice (len : Nat) (k : Int) : Nat :=
  if 0 ≤ k then k.toNat else len - (-k).toNat

/-- The flattened dark channel: `dark_ch.ravel()` at flat (row-major) index `t`. -/
def flatDark (N : Nat) (dark : Nat → Nat → ℚ) (t : Nat) : ℚ := dark (t / N) (t % N)

/-- `(-flat_dark).argsort()`: the flat indices `0, …, M·N−1` sorted by
descending dark-channel value (numpy leaves tie order unspecified; the
embedding fixes the deterministic stable insertion-sort order). -/
def sortedIdx (M N : Nat) (dark : Nat → Nat → ℚ) : List Nat :=
  List.insertionSort (fun a b => flatDark N dark b ≤ flatDark N dark a)
    (List.range (M * N))

/-- `argsort()[:int(M * N * p)]`: the selected flat indices. -/
def selectIdx (M N : Nat) (dark : Nat → Nat → ℚ) (p : ℚ) : List Nat :=
  (sortedIdx M N dark).take (pySlice (M * N) (truncQ ((M * N : ℚ) * p)))

/-- `get_atmosphere(I, dark_ch, p)`: per-channel maximum of the image pixels at
the selected flat indices.  When the selection is empty, `np.max` raises
(`zero-size array to reduction operation`), modelled as `none`. -/
def getAtmosphere (M N : Nat) (I : Nat → Nat → Fin 3 → ℚ)
    (dark : Nat → Nat → ℚ) (p : ℚ) : Option (Fin 3 → ℚ) :=
  if selectIdx M N dark p = [] then none
  else some fun c => listMax ((selectIdx M N dark p).map fun t => I (t / N) (t % N) c)

/-- `get_transmission(I, A, omega, w) = 1 - omega * get_dark_channel(I / A, w)`.
The division is performed unconditionally, as in the source (`ℚ` division by
zero is the junk value `0`; numpy emits non-finite values there). -/
def getTransmission (M N : Nat) (I : Nat → Nat → Fin 3 → ℚ) (A : Fin 3 → ℚ)
    (omega : ℚ) (w : Nat) : Nat → Nat → ℚ :=
  fun i j => 1 - omega * getDarkChannel M N (fun a b c => I a b c / A c) w i j

/-- All `M·N·3` channel values of the image, as reduced by `I.min()` / `I.max()`. -/
def imgVals (M N : Nat) (I : Nat → Nat → Fin 3 → ℚ) : List ℚ :=
  (List.range M).flatMap fun i =>
    (List.range N).flatMap fun j =>
      (List.finRange 3).map fun c => I i j c

/-- `normI = (I - I.min()) / (I.max() - I.min())` from `dehaze_raw`. -/
def normImg (M N : Nat) (I : Nat → Nat → Fin 3 → ℚ) : Nat → Nat → Fin 3 → ℚ :=
  fun i j c =>
    (I i j c - listMin (imgVals M N I)) /
      (listMax (imgVals M N I) - listMin (imgVals M N I))

/-- Type of the black-box `guided_filter(normI, refinedt, r, eps)` collaborator:
guidance image, input map and the two scalar parameters, to a refined map. -/
def GuidedFilter : Type :=
  (Nat → Nat → Fin 3 → ℚ) → (Nat → Nat → ℚ) → ℚ → ℚ → (Nat → Nat → ℚ)

/-- `dehaze_raw`: dark channel, atmosphere light clamped to `atm_max`, clamped
raw transmission and (optionally guided-filtered) refined transmission.
Returns `none` exactly when atmosphere estimation fails (empty selection);
note that after `rawt = refinedt = np.maximum(rawt, t_min)` the *clamped* map
is what is returned as the raw transmission. -/
def dehazeRaw (M N : Nat) (I : Nat → Nat → Fin 3 → ℚ)
    (tmin atmMax : ℚ) (w : Nat) (p omega : ℚ) (guided : Bool)
    (gf : GuidedFilter) (r eps : ℚ) :
    Option ((Nat → Nat → ℚ) × (Fin 3 → ℚ) × (Nat → Nat → ℚ) × (Nat → Nat → ℚ)) :=
  (getAtmosphere M N I (getDarkChannel M N I w) p).map fun atm0 =>
    let atm : Fin 3 → ℚ := fun c => min (atm0 c) atmMax
    let rawt : Nat → Nat → ℚ := fun i j => max (getTransmission M N I atm omega w i j) tmin
    (getDarkChannel M N I w, atm, rawt,
      if guided then gf (normImg M N I) rawt r eps else rawt)

/-- `get_radiance(I, A, t) = (I - A) / tiledt + A` with `t` tiled across the
3 channels. -/
def getRadiance (I : Nat → Nat → Fin 3 → ℚ) (A : Fin 3 → ℚ)
    (t : Nat → Nat → ℚ) : Nat → Nat → Fin 3 → ℚ :=
  fun i j c => (I i j c - A c) / t i j + A c

/-- `to_img` per scalar: clamp to `[0, 255]` then cast to `uint8`
(truncation; on the clamped nonnegative range this is the floor). -/
def toImgPix (x : ℚ) : Nat := (⌊max (min x 255) 0⌋).toNat

/-- The five artifacts returned by `dehaze`, after `to_img` quantization. -/
structure DehazeOut where
  darkImg : Nat → Nat → Nat
  rawtImg : Nat → Nat → Nat
  refinedtImg : Nat → Nat → Nat
  rawRad : Nat → Nat → Fin 3 → Nat
  reRad : Nat → Nat → Fin 3 → Nat

/-- `dehaze(img, …)`: run `dehaze_raw` and package the five quantized images
(`white = max_color_val - 1 = 255`). -/
def dehaze (M N : Nat) (img : Nat → Nat → Fin 3 → ℚ)
    (tmin atmMax : ℚ) (w : Nat) (p omega : ℚ) (guided : Bool)
    (gf : GuidedFilter) (r eps : ℚ) : Option DehazeOut :=
  (dehazeRaw M N img tmin atmMax w p omega guided gf r eps).map fun o =>
    { darkImg := fun i j => toImgPix (o.1 i j)
      rawtImg := fun i j => toImgPix (255 * o.2.2.1 i j)
      refinedtImg := fun i j => toImgPix (255 * o.2.2.2 i j)
      rawRad := fun i j c => toImgPix (getRadiance img o.2.1 o.2.2.1 i j c)
      reRad := fun i j c => toImgPix (getRadiance img o.2.1 o.2.2.2 i j c) }

/-- The constant mid-gray test image of the spec's end-to-end scenario:
every pixel RGB = (100, 100, 100). -/
def img100 : Nat → Nat → Fin 3 → ℚ := fun _ _ _ => 100

/-- The all-black test image: every channel value 0. -/
def imgZero : Nat → Nat → Fin 3 → ℚ := fun _ _ _ => 0

/-- A shape-preserving instance of the black-box guided-filter collaborator
that returns the all-zero map; used to witness the absence of any clamp after
the `guided_filter` call in `dehaze_raw`. -/
def gfZero : GuidedFilter := fun _ _ _ _ => fun _ _ => 0

/-! ## Basic facts about the fold-based minimum and maximum -/

set_option maxRecDepth 8000

lemma listMinAux_cons (x a : ℚ) (t : List ℚ) :
    listMinAux x (a :: t) = min a (listMinAux x t) := rfl

lemma listMaxAux_cons (x a : ℚ) (t : List ℚ) :
    listMaxAux x (a :: t) = max a (listMaxAux x t) := rfl

lemma listMinAux_le_seed (x : ℚ) (xs : List ℚ) : listMinAux x xs ≤ x := by
  induction xs with
  | nil => exact le_refl x
  | cons a t ih => rw [listMinAux_cons]; exact le_trans (min_le_right _ _) ih

lemma listMinAux_le_mem (x a : ℚ) (xs : List ℚ) (h : a ∈ xs) : listMinAux x xs ≤ a := by
  induction xs with
  | nil => cases h
  | cons b t ih =>
    rw [listMinAux_cons]
    rcases List.mem_cons.mp h with rfl | h2
    · exact min_le_left _ _
    · exact le_trans (min_le_right _ _) (ih h2)

lemma listMinAux_mem_or (x : ℚ) (xs : List ℚ) :
    listMinAux x xs = x ∨ listMinAux x xs ∈ xs := by
  induction xs with
  | nil => exact Or.inl rfl
  | cons b t ih =>
    rw [listMinAux_cons]
    rcases min_choice b (listMinAux x t) with h | h
    · exact Or.inr (by rw [h]; exact List.mem_cons_self b t)
    · rcases ih with h2 | h2
      · exact Or.inl (h.trans h2)
      · exact Or.inr (by rw [h]; exact List.mem_cons_of_mem b h2)

lemma listMaxAux_ge_seed (x : ℚ) (xs : List ℚ) : x ≤ listMaxAux x xs := by
  induction xs with
  | nil => exact le_refl x
  | cons a t ih => rw [listMaxAux_cons]; exact le_trans ih (le_max_right _ _)

lemma listMaxAux_ge_mem (x a : ℚ) (xs : List ℚ) (h : a ∈ xs) : a ≤ listMaxAux x xs := by
  induction xs with
  | nil => cases h
  | cons b t ih =>
    rw [listMaxAux_cons]
    rcases List.mem_cons.mp h with rfl | h2
    · exact le_max_left _ _
    · exact le_trans (ih h2) (le_max_right _ _)

lemma listMaxAux_mem_or (x : ℚ) (xs : List ℚ) :
    listMaxAux x xs = x ∨ listMaxAux x xs ∈ xs := by
  induction xs with
  | nil => exact Or.inl rfl
  | cons b t ih =>
    rw [listMaxAux_cons]
    rcases max_choice b (listMaxAux x t) with h | h
    · exact Or.inr (by rw [h]; exact List.mem_cons_self b t)
    · rcases ih with h2 | h2
      · exact Or.inl (h.trans h2)
      · exact Or.inr (by rw [h]; exact List.mem_cons_of_mem b h2)

lemma listMin_le_mem {l : List ℚ} {a : ℚ} (h : a ∈ l) : listMin l ≤ a := by
  cases l with
  | nil => cases h
  | cons x xs =>
    rcases List.mem_cons.mp h with rfl | h2
    · exact listMinAux_le_seed a xs
    · exact listMinAux_le_mem x a xs h2

lemma listMin_mem {l : List ℚ} (h : l ≠ []) : listMin l ∈ l := by
  cases l with
  | nil => exact absurd rfl h
  | cons x xs =>
    rcases listMinAux_mem_or x xs with h2 | h2
    · show listMinAux x xs ∈ x :: xs
      rw [h2]; exact List.mem_cons_self x xs
    · exact List.mem_cons_of_mem x h2

lemma listMax_ge_mem {l : List ℚ} {a : ℚ} (h : a ∈ l) : a ≤ listMax l := by
  cases l with
  | nil => cases h
  | cons x xs =>
    rcases List.mem_cons.mp h with rfl | h2
    · exact listMaxAux_ge_seed a xs
    · exact listMaxAux_ge_mem x a xs h2

lemma listMax_mem {l : List ℚ} (h : l ≠ []) : listMax l ∈ l := by
  cases l with
  | nil => exact absurd rfl h
  | cons x xs =>
    rcases listMaxAux_mem_or x xs with h2 | h2
    · show listMaxAux x xs ∈ x :: xs
      rw [h2]; exact List.mem_cons_self x xs
    · exact List.mem_cons_of_mem x h2

lemma listMax_of_all_eq {l : List ℚ} {v : ℚ} (h : l ≠ []) (hall : ∀ x ∈ l, x = v) :
    listMax l = v :=
  hall _ (listMax_mem h)

/-! ## The dark channel as a windowed minimum -/

lemma mem_windowVals {M N w i j : Nat} {I : Nat → Nat → Fin 3 → ℚ} {a : ℚ} :
    a ∈ windowVals M N I w i j ↔
      ∃ di, di < w ∧ ∃ dj, dj < w ∧ ∃ c, a = padEdge M N I (w / 2) (i + di) (j + dj) c := by
  simp only [windowVals, List.mem_flatMap, List.mem_range, List.mem_map, List.mem_finRange,
    true_and, eq_comm]

lemma windowVals_ne_nil {M N w i j : Nat} {I : Nat → Nat → Fin 3 → ℚ} (hw : 0 < w) :
    windowVals M N I w i j ≠ [] := by
  intro hnil
  have hmem : padEdge M N I (w / 2) (i + 0) (j + 0) 0 ∈ windowVals M N I w i j :=
    mem_windowVals.mpr ⟨0, hw, 0, hw, 0, rfl⟩
  rw [hnil] at hmem
  cases hmem

lemma getDarkChannel_le_window {M N w i j di dj : Nat} {I : Nat → Nat → Fin 3 → ℚ}
    (hdi : di < w) (hdj : dj < w) (c : Fin 3) :
    getDarkChannel M N I w i j ≤ padEdge M N I (w / 2) (i + di) (j + dj) c :=
  listMin_le_mem (mem_windowVals.mpr ⟨di, hdi, dj, hdj, c, rfl⟩)

lemma getDarkChannel_attained {M N w i j : Nat} {I : Nat → Nat → Fin 3 → ℚ}
    (hw : 0 < w) :
    ∃ di, di < w ∧ ∃ dj, dj < w ∧ ∃ c,
      getDarkChannel M N I w i j = padEdge M N I (w / 2) (i + di) (j + dj) c :=
  mem_windowVals.mp (listMin_mem (windowVals_ne_nil hw))

lemma getDarkChannel_of_const {M N w : Nat} {I : Nat → Nat → Fin 3 → ℚ} {v : ℚ}
    (hI : ∀ a b c, I a b c = v) (hw : 0 < w) (i j : Nat) :
    getDarkChannel M N I w i j = v := by
  rcases getDarkChannel_attained (M := M) (N := N) (I := I) (i := i) (j := j) hw with
    ⟨di, _, dj, _, c, hc⟩
  rw [hc]; exact hI _ _ _

lemma getDarkChannel_nonneg {M N w : Nat} {I : Nat → Nat → Fin 3 → ℚ}
    (hI : ∀ a b c, 0 ≤ I a b c) (i j : Nat) :
    0 ≤ getDarkChannel M N I w i j := by
  by_cases hnil : windowVals M N I w i j = []
  · show 0 ≤ listMin (windowVals M N I w i j)
    rw [hnil]; exact le_refl 0
  · rcases mem_windowVals.mp (listMin_mem hnil) with ⟨di, _, dj, _, c, hc⟩
    show 0 ≤ listMin (windowVals M N I w i j)
    rw [hc]; exact hI _ _ _

/-! ## The atmosphere-light selection -/

lemma ratFloor_eq_intFloor (q : ℚ) : Rat.floor q = ⌊q⌋ := rfl

lemma truncQ_of_nonneg {q : ℚ} (h : 0 ≤ q) : truncQ q = ⌊q⌋ := by
  rw [truncQ, if_pos h, ratFloor_eq_intFloor]

lemma sortedIdx_perm (M N : Nat) (dark : Nat → Nat → ℚ) :
    (sortedIdx M N dark).Perm (List.range (M * N)) :=
  List.perm_insertionSort _ _

lemma length_sortedIdx (M N : Nat) (dark : Nat → Nat → ℚ) :
    (sortedIdx M N dark).length = M * N := by
  rw [(sortedIdx_perm M N dark).length_eq, List.length_range]

lemma sortedIdx_sorted (M N : Nat) (dark : Nat → Nat → ℚ) :
    (sortedIdx M N dark).Sorted fun a b => flatDark N dark b ≤ flatDark N dark a := by
  haveI : IsTotal Nat fun a b => flatDark N dark b ≤ flatDark N dark a :=
    ⟨fun a b => le_total (flatDark N dark b) (flatDark N dark a)⟩
  haveI : IsTrans Nat fun a b => flatDark N dark b ≤ flatDark N dark a :=
    ⟨fun _ _ _ h1 h2 => le_trans h2 h1⟩
  exact List.sorted_insertionSort _ _

lemma length_selectIdx (M N : Nat) (dark : Nat → Nat → ℚ) (p : ℚ) :
    (selectIdx M N dark p).length
      = min (pySlice (M * N) (truncQ ((M * N : ℚ) * p))) (M * N) := by
  rw [selectIdx, List.length_take, length_sortedIdx]

lemma mem_selectIdx_lt {M N : Nat} {dark : Nat → Nat → ℚ} {p : ℚ} {t : Nat}
    (h : t ∈ selectIdx M N dark p) : t < M * N := by
  have h2 : t ∈ sortedIdx M N dark := List.mem_of_mem_take h
  exact List.mem_range.mp ((sortedIdx_perm M N dark).mem_iff.mp h2)

/-- The indices selected by `get_atmosphere` carry the largest dark-channel
values: anything selected dominates anything left out. -/
lemma selectIdx_topk {M N : Nat} {dark : Nat → Nat → ℚ} {p : ℚ} {a b : Nat}
    (ha : a ∈ selectIdx M N dark p) (hb : b < M * N)
    (hnb : b ∉ selectIdx M N dark p) :
    flatDark N dark b ≤ flatDark N dark a := by
  have hpw : (sortedIdx M N dark).Pairwise fun x y => flatDark N dark y ≤ flatDark N dark x :=
    sortedIdx_sorted M N dark
  have hmem : b ∈ sortedIdx M N dark :=
    (sortedIdx_perm M N dark).mem_iff.mpr (List.mem_range.mpr hb)
  have hsplit : (selectIdx M N dark p)
      ++ (sortedIdx M N dark).drop (pySlice (M * N) (truncQ ((M * N : ℚ) * p)))
      = sortedIdx M N dark := List.take_append_drop _ _
  rw [← hsplit] at hpw hmem
  have hb2 : b ∈ (sortedIdx M N dark).drop (pySlice (M * N) (truncQ ((M * N : ℚ) * p))) := by
    rcases List.mem_append.mp hmem with h | h
    · exact absurd h hnb
    · exact h
  exact (List.pairwise_append.mp hpw).2.2 a ha b hb2

lemma getAtmosphere_of_ne_nil {M N : Nat} {I : Nat → Nat → Fin 3 → ℚ}
    {dark : Nat → Nat → ℚ} {p : ℚ} (h : selectIdx M N dark p ≠ []) :
    getAtmosphere M N I dark p
      = some fun c => listMax ((selectIdx M N dark p).map fun t => I (t / N) (t % N) c) := by
  rw [getAtmosphere, if_neg h]

lemma getAtmosphere_of_nil {M N : Nat} {I : Nat → Nat → Fin 3 → ℚ}
    {dark : Nat → Nat → ℚ} {p : ℚ} (h : selectIdx M N dark p = []) :
    getAtmosphere M N I dark p = none := by
  rw [getAtmosphere, if_pos h]

lemma getAtmosphere_const {M N : Nat} {I : Nat → Nat → Fin 3 → ℚ} {v : ℚ}
    {dark : Nat → Nat → ℚ} {p : ℚ}
    (hI : ∀ a b c, I a b c = v) (h : selectIdx M N dark p ≠ []) :
    getAtmosphere M N I dark p = some fun _ => v := by
  rw [getAtmosphere_of_ne_nil h]
  refine congrArg some (funext fun c => listMax_of_all_eq ?_ ?_)
  · intro hnil
    exact h (List.map_eq_nil_iff.mp hnil)
  · intro x hx
    rcases List.mem_map.mp hx with ⟨t, _, ht⟩
    rw [← ht]; exact hI _ _ _

/-- Unfolding `dehaze_raw` once atmosphere estimation has succeeded. -/
lemma dehazeRaw_eq_some {M N : Nat} {I : Nat → Nat → Fin 3 → ℚ}
    {tmin atmMax : ℚ} {w : Nat} {p omega : ℚ} {guided : Bool}
    {gf : GuidedFilter} {r eps : ℚ} {atm0 : Fin 3 → ℚ}
    (hA : getAtmosphere M N I (getDarkChannel M N I w) p = some atm0) :
    dehazeRaw M N I tmin atmMax w p omega guided gf r eps =
      some (getDarkChannel M N I w,
        fun c => min (atm0 c) atmMax,
        fun i j => max (getTransmission M N I (fun c => min (atm0 c) atmMax) omega w i j) tmin,
        if guided
        then gf (normImg M N I)
          (fun i j => max (getTransmission M N I (fun c => min (atm0 c) atmMax) omega w i j) tmin)
          r eps
        else fun i j =>
          max (getTransmission M N I (fun c => min (atm0 c) atmMax) omega w i j) tmin) := by
  rw [dehazeRaw, hA]; rfl

/-! ## Claims -/

/-- C2: for every `M×N×3` image with nonnegative entries and every positive
window size `w`, `get_dark_channel` returns at cell `(i, j)` the minimum over
the `w×w` window anchored `⌊w/2⌋` left/up of `(i, j)` across all 3 channels,
reading out-of-bounds positions as the nearest border pixel (edge-replication
padding with margin `⌊w/2⌋`): the cell value bounds every window read from
below and is attained by one of them. -/
theorem dark_channel_is_window_min (M N w : Nat) (I : Nat → Nat → Fin 3 → ℚ)
    (hI : ∀ a b c, 0 ≤ I a b c) (hw : 0 < w) (i j : Nat) (hi : i < M) (hj : j < N) :
    (∀ di dj, di < w → dj < w → ∀ c : Fin 3,
        getDarkChannel M N I w i j
          ≤ I (min (i + di - w / 2) (M - 1)) (min (j + dj - w / 2) (N - 1)) c) ∧
    (∃ di, di < w ∧ ∃ dj, dj < w ∧ ∃ c : Fin 3,
        getDarkChannel M N I w i j
          = I (min (i + di - w / 2) (M - 1)) (min (j + dj - w / 2) (N - 1)) c) := by
  constructor
  · intro di dj hdi hdj c
    exact getDarkChannel_le_window hdi hdj c
  · exact getDarkChannel_attained hw

theorem dark_channel_is_window_min_witness :
    ((∀ a b c, (0:ℚ) ≤ imgZero a b c) ∧ 0 < 1) ∧
    ((∀ di dj, di < 1 → dj < 1 → ∀ c : Fin 3,
        getDarkChannel 1 1 imgZero 1 0 0
          ≤ imgZero (min (0 + di - 1 / 2) (1 - 1)) (min (0 + dj - 1 / 2) (1 - 1)) c) ∧
    (∃ di, di < 1 ∧ ∃ dj, dj < 1 ∧ ∃ c : Fin 3,
        getDarkChannel 1 1 imgZero 1 0 0
          = imgZero (min (0 + di - 1 / 2) (1 - 1)) (min (0 + dj - 1 / 2) (1 - 1)) c)) :=
  ⟨⟨fun _ _ _ => le_refl 0, Nat.one_pos⟩,
   dark_channel_is_window_min 1 1 1 imgZero (fun _ _ _ => le_refl 0) Nat.one_pos 0 0
     Nat.one_pos Nat.one_pos⟩

/-- C4: when `floor(M·N·p) = 0` the atmosphere estimation selects no pixel and
fails (modelled `none`, as `np.max` raises on the empty selection) instead of
returning any default or empty-aggregate atmosphere light. -/
theorem atmosphere_empty_selection_fails (M N : Nat) (I : Nat → Nat → Fin 3 → ℚ)
    (dark : Nat → Nat → ℚ) (p : ℚ) (h : ⌊(M * N : ℚ) * p⌋ = 0) :
    getAtmosphere M N I dark p = none := by
  have hq : 0 ≤ (M * N : ℚ) * p := by
    have h2 := Int.floor_eq_zero_iff.mp h
    rw [Set.mem_Ico] at h2
    exact h2.1
  have hsel : selectIdx M N dark p = [] := by
    have ht : truncQ ((M * N : ℚ) * p) = 0 := by rw [truncQ_of_nonneg hq, h]
    rw [selectIdx, ht]
    rfl
  exact getAtmosphere_of_nil hsel

theorem atmosphere_empty_selection_fails_witness :
    ⌊((1 * 1 : Nat) : ℚ) * 0⌋ = 0 ∧ getAtmosphere 1 1 imgZero (fun _ _ => 0) 0 = none :=
  ⟨by norm_num, atmosphere_empty_selection_fails 1 1 imgZero (fun _ _ => 0) 0 (by norm_num)⟩

/-- C7: with `guided=false` the refined transmission map returned by
`dehaze_raw` equals `max(raw, t_min)` elementwise — the clamp of the raw
transmission produced by `get_transmission` from the clamped atmosphere
light — with no smoothing applied. -/
theorem unguided_refined_eq_clamped (M N : Nat) (I : Nat → Nat → Fin 3 → ℚ)
    (tmin atmMax : ℚ) (w : Nat) (p omega : ℚ) (gf : GuidedFilter) (r eps : ℚ)
    (o : (Nat → Nat → ℚ) × (Fin 3 → ℚ) × (Nat → Nat → ℚ) × (Nat → Nat → ℚ))
    (h : dehazeRaw M N I tmin atmMax w p omega false gf r eps = some o) (i j : Nat) :
    o.2.2.2 i j = max (getTransmission M N I o.2.1 omega w i j) tmin := by
  rcases hA : getAtmosphere M N I (getDarkChannel M N I w) p with _ | atm0
  · rw [dehazeRaw, hA] at h; cases h
  · rw [dehazeRaw_eq_some hA] at h
    cases h
    rfl

lemma demoRun1_isSome :
    (dehazeRaw 1 1 img100 (1/5) 220 1 1 (19/20) false gfZero 40 (1/1000)).isSome = true := by
  with_unfolding_all decide

theorem unguided_refined_eq_clamped_witness :
    ((dehazeRaw 1 1 img100 (1/5) 220 1 1 (19/20) false gfZero 40 (1/1000)).get
        demoRun1_isSome).2.2.2 0 0
      = max (getTransmission 1 1 img100
          ((dehazeRaw 1 1 img100 (1/5) 220 1 1 (19/20) false gfZero 40 (1/1000)).get
            demoRun1_isSome).2.1 (19/20) 1 0 0) (1/5) :=
  unguided_refined_eq_clamped 1 1 img100 (1/5) 220 1 1 (19/20) gfZero 40 (1/1000) _
    (Option.some_get demoRun1_isSome).symm 0 0

/-- C8: for a nonnegative image and strictly positive atmosphere light,
the raw transmission map is antitone in `omega` on `[0, 1]`: a larger bias
never increases `1 − omega·darkChannel(I/A)`. -/
theorem transmission_antitone_in_omega (M N : Nat) (I : Nat → Nat → Fin 3 → ℚ)
    (A : Fin 3 → ℚ) (w : Nat) (omega1 omega2 : ℚ) (i j : Nat)
    (hI : ∀ a b c, 0 ≤ I a b c) (hA : ∀ c, 0 < A c)
    (h0 : 0 ≤ omega1) (h1 : omega2 ≤ 1) (h12 : omega1 ≤ omega2) :
    getTransmission M N I A omega2 w i j ≤ getTransmission M N I A omega1 w i j := by
  have hd : 0 ≤ getDarkChannel M N (fun a b c => I a b c / A c) w i j :=
    getDarkChannel_nonneg (fun a b c => div_nonneg (hI a b c) (le_of_lt (hA c))) i j
  simp only [getTransmission]
  exact sub_le_sub_left (mul_le_mul_of_nonneg_right h12 hd) 1

theorem transmission_antitone_in_omega_witness :
    ((∀ a b c, (0:ℚ) ≤ imgZero a b c) ∧ (∀ c : Fin 3, (0:ℚ) < 1) ∧
      (0:ℚ) ≤ 0 ∧ (1:ℚ) ≤ 1 ∧ (0:ℚ) ≤ 1) ∧
    getTransmission 1 1 imgZero (fun _ => 1) 1 1 0 0
      ≤ getTransmission 1 1 imgZero (fun _ => 1) 0 1 0 0 :=
  ⟨⟨fun _ _ _ => le_refl 0, fun _ => one_pos, le_refl 0, le_refl 1, zero_le_one⟩,
   transmission_antitone_in_omega 1 1 imgZero (fun _ => 1) 1 0 1 0 0
     (fun _ _ _ => le_refl 0) (fun _ => one_pos) (le_refl 0) (le_refl 1) zero_le_one⟩

/-- C3 counterexample: on a 2×2 dark-channel map with p = 2, the claimed count
`floor(M·N·p) = 8` satisfies `1 ≤ 8`, but only 4 positions exist: the
selection has length 4, not `floor(M·N·p)`. -/
theorem atmosphere_count_cex :
    1 ≤ ⌊((2 * 2 : Nat) : ℚ) * 2⌋ ∧
    (selectIdx 2 2 (fun _ _ => 0) 2).length ≠ (⌊((2 * 2 : Nat) : ℚ) * 2⌋).toNat := by
  with_unfolding_all decide

/-- C3 (amended): for every image, dark channel and `p` with
`1 ≤ floor(M·N·p)` and additionally `floor(M·N·p) ≤ M·N` (as holds whenever
`p ≤ 1`), the estimation selects exactly `floor(M·N·p)` positions, every
selected position carries a dark-channel value at least that of every
unselected one, the returned atmosphere light is the per-channel maximum of
the image pixels at the selected positions, and each component clamped by
`dehaze_raw` is at most `atm_max`. -/
theorem atmosphere_topk_spec (M N : Nat) (I : Nat → Nat → Fin 3 → ℚ)
    (dark : Nat → Nat → ℚ) (p atmMax : ℚ)
    (h1 : 1 ≤ ⌊(M * N : ℚ) * p⌋) (h2 : (⌊(M * N : ℚ) * p⌋).toNat ≤ M * N) :
    (selectIdx M N dark p).length = (⌊(M * N : ℚ) * p⌋).toNat ∧
    (∀ a ∈ selectIdx M N dark p, ∀ b < M * N, b ∉ selectIdx M N dark p →
        flatDark N dark b ≤ flatDark N dark a) ∧
    (∃ A, getAtmosphere M N I dark p = some A ∧
      (∀ c : Fin 3, ∀ a ∈ selectIdx M N dark p, I (a / N) (a % N) c ≤ A c) ∧
      (∀ c : Fin 3, ∃ a ∈ selectIdx M N dark p, A c = I (a / N) (a % N) c) ∧
      (∀ c : Fin 3, min (A c) atmMax ≤ atmMax)) := by
  have hq : (1:ℚ) ≤ (M * N : ℚ) * p := by exact_mod_cast Int.le_floor.mp h1
  have hq0 : 0 ≤ (M * N : ℚ) * p := le_trans zero_le_one hq
  have hps : pySlice (M * N) (truncQ ((M * N : ℚ) * p)) = (⌊(M * N : ℚ) * p⌋).toNat := by
    rw [truncQ_of_nonneg hq0, pySlice, if_pos (le_trans Int.one_nonneg h1)]
  have hlen : (selectIdx M N dark p).length = (⌊(M * N : ℚ) * p⌋).toNat := by
    rw [length_selectIdx, hps, min_eq_left h2]
  refine ⟨hlen, fun a ha b hb hnb => selectIdx_topk ha hb hnb, ?_⟩
  have hne : selectIdx M N dark p ≠ [] := by
    apply List.ne_nil_of_length_pos
    rw [hlen]
    omega
  refine ⟨_, getAtmosphere_of_ne_nil hne, ?_, ?_, fun c => min_le_right _ _⟩
  · intro c a ha
    exact listMax_ge_mem (List.mem_map.mpr ⟨a, ha, rfl⟩)
  · intro c
    have hmapne : (selectIdx M N dark p).map (fun t => I (t / N) (t % N) c) ≠ [] := by
      intro hnil; exact hne (List.map_eq_nil_iff.mp hnil)
    rcases List.mem_map.mp (listMax_mem hmapne) with ⟨a, ha, hv⟩
    exact ⟨a, ha, hv.symm⟩

theorem atmosphere_topk_spec_witness :
    (1 ≤ ⌊((1 : Nat) : ℚ) * ((1 : Nat) : ℚ) * 1⌋ ∧
      (⌊((1 : Nat) : ℚ) * ((1 : Nat) : ℚ) * 1⌋).toNat ≤ 1 * 1) ∧
    ((selectIdx 1 1 (fun _ _ => 0) 1).length
        = (⌊((1 : Nat) : ℚ) * ((1 : Nat) : ℚ) * 1⌋).toNat ∧
    (∀ a ∈ selectIdx 1 1 (fun _ _ => 0) 1, ∀ b < 1 * 1,
        b ∉ selectIdx 1 1 (fun _ _ => 0) 1 →
        flatDark 1 (fun _ _ => 0) b ≤ flatDark 1 (fun _ _ => 0) a) ∧
    (∃ A, getAtmosphere 1 1 img100 (fun _ _ => 0) 1 = some A ∧
      (∀ c : Fin 3, ∀ a ∈ selectIdx 1 1 (fun _ _ => 0) 1,
          img100 (a / 1) (a % 1) c ≤ A c) ∧
      (∀ c : Fin 3, ∃ a ∈ selectIdx 1 1 (fun _ _ => 0) 1, A c = img100 (a / 1) (a % 1) c) ∧
      (∀ c : Fin 3, min (A c) 220 ≤ 220))) :=
  ⟨⟨by norm_num, by norm_num⟩,
   atmosphere_topk_spec 1 1 img100 (fun _ _ => 0) 1 220 (by norm_num) (by norm_num)⟩

/-- C5 counterexample: on the all-black 1×1 image the estimated atmosphere
light has component 0 ≤ 0 after clamping, yet `dehaze_raw` returns a result
instead of failing: the code contains no DivisionError path and divides
unconditionally. -/
theorem transmission_no_division_error_cex :
    (dehazeRaw 1 1 imgZero (1/5) 220 3 1 (19/20) false gfZero 40 (1/1000)).map
        (fun o => o.2.1 0) = some 0 ∧ ((0:ℚ) ≤ 0) := by
  constructor
  · with_unfolding_all decide
  · exact le_refl 0

/-- C5 (amended): transmission estimation performs the elementwise division
`I / A` unconditionally and raises nothing: whenever atmosphere estimation
succeeds, `dehaze_raw` returns a result even if a component of the clamped
atmosphere light is ≤ 0 (the implementation then emits non-finite values
where it divides by zero, rather than an error). -/
theorem transmission_unvalidated_division (M N : Nat) (I : Nat → Nat → Fin 3 → ℚ)
    (tmin atmMax : ℚ) (w : Nat) (p omega : ℚ) (guided : Bool)
    (gf : GuidedFilter) (r eps : ℚ) (atm0 : Fin 3 → ℚ) (c : Fin 3)
    (hA : getAtmosphere M N I (getDarkChannel M N I w) p = some atm0)
    (hc : min (atm0 c) atmMax ≤ 0) :
    (dehazeRaw M N I tmin atmMax w p omega guided gf r eps).isSome = true := by
  rw [dehazeRaw_eq_some hA]
  rfl

lemma selectZero_ne_nil : selectIdx 1 1 (getDarkChannel 1 1 imgZero 1) 1 ≠ [] := by
  with_unfolding_all decide

lemma atmosphereZero :
    getAtmosphere 1 1 imgZero (getDarkChannel 1 1 imgZero 1) 1 = some fun _ => (0:ℚ) :=
  getAtmosphere_const (fun _ _ _ => rfl) selectZero_ne_nil

theorem transmission_unvalidated_division_witness :
    (min ((fun _ : Fin 3 => (0:ℚ)) 0) 220 ≤ 0) ∧
    (dehazeRaw 1 1 imgZero (1/5) 220 1 1 (19/20) false gfZero 40 (1/1000)).isSome = true :=
  ⟨by norm_num,
   transmission_unvalidated_division 1 1 imgZero (1/5) 220 1 1 (19/20) false gfZero 40
     (1/1000) (fun _ => 0) 0 atmosphereZero (by norm_num)⟩

/-- C6 counterexample: with `guided=true` and a shape-preserving guided-filter
operator that returns the zero map, the refined transmission returned by
`dehaze_raw` — the map `dehaze` divides by in radiance recovery — is 0 at
(0,0), strictly below `t_min = 1/5`: no clamp is re-applied after the
guided-filter call. -/
theorem refined_below_tmin_cex :
    (dehazeRaw 1 1 img100 (1/5) 220 1 1 (19/20) true gfZero 40 (1/1000)).map
        (fun o => o.2.2.2 0 0) = some 0 ∧ ¬ ((1/5 : ℚ) ≤ 0) := by
  constructor
  · with_unfolding_all decide
  · with_unfolding_all decide

/-- C6 (amended): with `guided=false`, every value of the two transmission
maps returned by `dehaze_raw` — those used as divisors in radiance
recovery — is at least `t_min`. -/
theorem unguided_divisor_floor (M N : Nat) (I : Nat → Nat → Fin 3 → ℚ)
    (tmin atmMax : ℚ) (w : Nat) (p omega : ℚ) (gf : GuidedFilter) (r eps : ℚ)
    (o : (Nat → Nat → ℚ) × (Fin 3 → ℚ) × (Nat → Nat → ℚ) × (Nat → Nat → ℚ))
    (h : dehazeRaw M N I tmin atmMax w p omega false gf r eps = some o) (i j : Nat) :
    tmin ≤ o.2.2.1 i j ∧ tmin ≤ o.2.2.2 i j := by
  rcases hA : getAtmosphere M N I (getDarkChannel M N I w) p with _ | atm0
  · rw [dehazeRaw, hA] at h; cases h
  · rw [dehazeRaw_eq_some hA] at h
    cases h
    exact ⟨le_max_right _ _, le_max_right _ _⟩

theorem unguided_divisor_floor_witness :
    ((1/5 : ℚ) ≤ ((dehazeRaw 1 1 img100 (1/5) 220 1 1 (19/20) false gfZero 40
        (1/1000)).get demoRun1_isSome).2.2.1 0 0) ∧
    ((1/5 : ℚ) ≤ ((dehazeRaw 1 1 img100 (1/5) 220 1 1 (19/20) false gfZero 40
        (1/1000)).get demoRun1_isSome).2.2.2 0 0) :=
  unguided_divisor_floor 1 1 img100 (1/5) 220 1 1 (19/20) gfZero 40 (1/1000) _
    (Option.some_get demoRun1_isSome).symm 0 0

/-- C9 counterexample: with `p = 2`, which violates `p ≤ 1`, the pipeline
entry point raises no error at all: it runs every stage and produces its full
five-artifact output. -/
theorem no_eager_parameter_error_cex :
    ¬ ((2:ℚ) ≤ 1) ∧
    (dehaze 1 1 img100 (1/5) 220 1 2 (19/20) false gfZero 40 (1/1000)).isSome = true := by
  constructor
  · with_unfolding_all decide
  · with_unfolding_all decide

/-- C9 (amended): the core performs no parameter validation: an out-of-range
`p > 1` is not rejected eagerly (nor at all) — the selection silently covers
all `M·N` pixels and the pipeline runs to completion, producing full output. -/
theorem invalid_p_full_pipeline (M N : Nat) (img : Nat → Nat → Fin 3 → ℚ)
    (tmin atmMax : ℚ) (w : Nat) (omega : ℚ) (gf : GuidedFilter) (r eps : ℚ) (p : ℚ)
    (hMN : 1 ≤ M * N) (hp : 1 < p) :
    (selectIdx M N (getDarkChannel M N img w) p).length = M * N ∧
    (dehaze M N img tmin atmMax w p omega false gf r eps).isSome = true := by
  have hq0 : (0:ℚ) ≤ (M * N : ℚ) * p :=
    mul_nonneg (by positivity) (le_of_lt (lt_trans one_pos hp))
  have hfl : (M * N : ℤ) ≤ ⌊(M * N : ℚ) * p⌋ := by
    apply Int.le_floor.mpr
    push_cast
    exact le_mul_of_one_le_right (by positivity) (le_of_lt hp)
  have hlen : (selectIdx M N (getDarkChannel M N img w) p).length = M * N := by
    rw [length_selectIdx, truncQ_of_nonneg hq0, pySlice,
      if_pos (le_trans (by exact_mod_cast Nat.zero_le (M * N)) hfl)]
    omega
  have hne : selectIdx M N (getDarkChannel M N img w) p ≠ [] := by
    apply List.ne_nil_of_length_pos
    rw [hlen]
    omega
  refine ⟨hlen, ?_⟩
  rw [dehaze, dehazeRaw_eq_some (getAtmosphere_of_ne_nil hne)]
  rfl

theorem invalid_p_full_pipeline_witness :
    (1 ≤ 1 * 1 ∧ (1:ℚ) < 2) ∧
    ((selectIdx 1 1 (getDarkChannel 1 1 img100 1) 2).length = 1 * 1 ∧
    (dehaze 1 1 img100 (1/5) 220 1 2 (19/20) false gfZero 40 (1/1000)).isSome = true) :=
  ⟨⟨le_refl 1, by norm_num⟩,
   invalid_p_full_pipeline 1 1 img100 (1/5) 220 1 (19/20) gfZero 40 (1/1000) 2
     (le_refl 1) (by norm_num)⟩

/-- C10: with `guided=false`, the raw-transmission map returned by
`dehaze_raw` is itself the clamped map `max(raw, t_min)` (the unclamped raw
map is not returned) and coincides with the refined map; consequently the
radiance-from-raw and radiance-from-refined images packaged by `dehaze` are
identical. -/
theorem unguided_raw_eq_refined_outputs (M N : Nat) (img : Nat → Nat → Fin 3 → ℚ)
    (tmin atmMax : ℚ) (w : Nat) (p omega : ℚ) (gf : GuidedFilter) (r eps : ℚ)
    (o : (Nat → Nat → ℚ) × (Fin 3 → ℚ) × (Nat → Nat → ℚ) × (Nat → Nat → ℚ))
    (u : DehazeOut)
    (hR : dehazeRaw M N img tmin atmMax w p omega false gf r eps = some o)
    (hD : dehaze M N img tmin atmMax w p omega false gf r eps = some u) :
    (∀ i j, o.2.2.1 i j = max (getTransmission M N img o.2.1 omega w i j) tmin
          ∧ o.2.2.1 i j = o.2.2.2 i j) ∧
    (∀ i j c, u.rawRad i j c = u.reRad i j c) := by
  rcases hA : getAtmosphere M N img (getDarkChannel M N img w) p with _ | atm0
  · rw [dehazeRaw, hA] at hR; cases hR
  · rw [dehaze, dehazeRaw_eq_some hA] at hD
    rw [dehazeRaw_eq_some hA] at hR
    simp only [Option.map_some'] at hD
    cases hR
    cases hD
    exact ⟨fun i j => ⟨rfl, rfl⟩, fun i j c => rfl⟩

lemma demoRun1D_isSome :
    (dehaze 1 1 img100 (1/5) 220 1 1 (19/20) false gfZero 40 (1/1000)).isSome = true := by
  with_unfolding_all decide

theorem unguided_raw_eq_refined_outputs_witness :
    (∀ i j, ((dehazeRaw 1 1 img100 (1/5) 220 1 1 (19/20) false gfZero 40
          (1/1000)).get demoRun1_isSome).2.2.1 i j
        = max (getTransmission 1 1 img100
            ((dehazeRaw 1 1 img100 (1/5) 220 1 1 (19/20) false gfZero 40
              (1/1000)).get demoRun1_isSome).2.1 (19/20) 1 i j) (1/5)
      ∧ ((dehazeRaw 1 1 img100 (1/5) 220 1 1 (19/20) false gfZero 40
          (1/1000)).get demoRun1_isSome).2.2.1 i j
        = ((dehazeRaw 1 1 img100 (1/5) 220 1 1 (19/20) false gfZero 40
          (1/1000)).get demoRun1_isSome).2.2.2 i j) ∧
    (∀ i j c, ((dehaze 1 1 img100 (1/5) 220 1 1 (19/20) false gfZero 40
          (1/1000)).get demoRun1D_isSome).rawRad i j c
        = ((dehaze 1 1 img100 (1/5) 220 1 1 (19/20) false gfZero 40
          (1/1000)).get demoRun1D_isSome).reRad i j c) :=
  unguided_raw_eq_refined_outputs 1 1 img100 (1/5) 220 1 1 (19/20) gfZero 40 (1/1000) _ _
    (Option.some_get demoRun1_isSome).symm (Option.some_get demoRun1D_isSome).symm


lemma select44_len : (selectIdx 4 4 (getDarkChannel 4 4 img100 3) (1/2)).length = 8 := by
  rw [length_selectIdx]
  rw [show truncQ (((4:Nat):ℚ) * ((4:Nat):ℚ) * (1/2)) = 8 from by with_unfolding_all decide]
  rfl

lemma select44_ne_nil : selectIdx 4 4 (getDarkChannel 4 4 img100 3) (1/2) ≠ [] := by
  apply List.ne_nil_of_length_pos
  rw [select44_len]
  decide

lemma atmosphere44 :
    getAtmosphere 4 4 img100 (getDarkChannel 4 4 img100 3) (1/2) = some fun _ => (100:ℚ) :=
  getAtmosphere_const (fun _ _ _ => rfl) select44_ne_nil

/-- C1: end-to-end scenario on the 4×4 constant image (all pixels RGB
(100,100,100)) with w=3, p=1/2, omega=19/20, t_min=1/5, atm_max=220 and
guided=false: the dark channel is a 4×4 grid of all 100s, the atmosphere
light is (100,100,100), the raw transmission 1 − (19/20)·1 = 1/20 is floored
to t_min = 1/5 in both returned maps, and the recovered radiance equals the
input image — 100 at every pixel and channel. -/
theorem end_to_end_constant_image :
    ∃ o, dehazeRaw 4 4 img100 (1/5) 220 3 (1/2) (19/20) false gfZero 40 (1/1000) = some o
      ∧ (∀ i j : Fin 4, o.1 i.1 j.1 = 100)
      ∧ (∀ c : Fin 3, o.2.1 c = 100)
      ∧ (∀ i j : Fin 4, getTransmission 4 4 img100 o.2.1 (19/20) 3 i.1 j.1 = 1/20)
      ∧ (∀ i j : Fin 4, o.2.2.1 i.1 j.1 = 1/5 ∧ o.2.2.2 i.1 j.1 = 1/5)
      ∧ (∀ (i j : Fin 4) (c : Fin 3),
          getRadiance img100 o.2.1 o.2.2.1 i.1 j.1 c = img100 i.1 j.1 c) := by
  have hA100 : (fun c : Fin 3 => min ((fun _ : Fin 3 => (100:ℚ)) c) 220)
      = fun _ : Fin 3 => (100:ℚ) :=
    funext fun _ => min_eq_left (by norm_num)
  have hconst : ∀ a b c, img100 a b c / (fun _ : Fin 3 => (100:ℚ)) c = (1:ℚ) := by
    intro a b c
    norm_num [img100]
  have htr : ∀ i j : Nat,
      getTransmission 4 4 img100 (fun _ : Fin 3 => (100:ℚ)) (19/20) 3 i j = 1/20 := by
    intro i j
    simp only [getTransmission]
    rw [getDarkChannel_of_const (v := (1:ℚ)) hconst (by norm_num : (0:Nat) < 3) i j]
    norm_num
  have hrun := @dehazeRaw_eq_some 4 4 img100 (1/5) 220 3 (1/2) (19/20) false gfZero 40
    (1/1000) (fun _ => (100:ℚ)) atmosphere44
  rw [hA100] at hrun
  refine ⟨_, hrun, ?_, ?_, ?_, ?_, ?_⟩
  · intro i j
    exact getDarkChannel_of_const (fun _ _ _ => rfl) (by norm_num : (0:Nat) < 3) i.1 j.1
  · intro c
    rfl
  · intro i j
    exact htr i.1 j.1
  · intro i j
    constructor
    · show max (getTransmission 4 4 img100 (fun _ : Fin 3 => (100:ℚ)) (19/20) 3 i.1 j.1)
          (1/5) = 1/5
      rw [htr i.1 j.1]
      exact max_eq_right (by norm_num)
    · show max (getTransmission 4 4 img100 (fun _ : Fin 3 => (100:ℚ)) (19/20) 3 i.1 j.1)
          (1/5) = 1/5
      rw [htr i.1 j.1]
      exact max_eq_right (by norm_num)
  · intro i j c
    show ((100:ℚ) - 100)
        / max (getTransmission 4 4 img100 (fun _ : Fin 3 => (100:ℚ)) (19/20) 3 i.1 j.1)
          (1/5) + 100 = 100
    rw [htr i.1 j.1, max_eq_right (by norm_num : (1/20:ℚ) ≤ 1/5)]
    norm_num
